import Mathlib

/-!
Shallow embedding of the core pipeline of the speech-to-tweet repository:
the TTL cache, the transcription adapter and tweet-thread generator of
`src/unnamed/part_000` (the server OpenAI adapter), and the credential
validation and thread publisher of `src/server/twitter.ts`.

External capabilities (the OpenAI Whisper call, the GPT chat-completion
call, the Twitter publish call) are modelled as oracle arguments; calls to
them are counted and, for the publisher and the file system, recorded in an
explicit trace, so that claims about call counts, call arguments and
resource lifecycles can be stated.
-/

namespace SpeechToTweet

deriving instance DecidableEq for Except

/-! ## JavaScript string helpers

JS `String.prototype.trim` removes leading/trailing whitespace; we model
the ASCII whitespace characters that matter for the texts in scope. -/

def jsIsWhitespace (c : Char) : Bool :=
  c = ' ' || c = '\t' || c = '\n' || c = '\r'

def jsTrim (s : String) : String :=
  String.mk (((s.data.dropWhile jsIsWhitespace).reverse.dropWhile jsIsWhitespace).reverse)

/-! ## Cache model (`src/unnamed/part_000`, lines 12-42)

`Map<string, CacheItem<T>>` is modelled as an association list; JS `Map.set`
overwrites an existing key in place and otherwise appends. -/

structure CacheItem (T : Type) where
  value : T
  timestamp : Nat
  deriving Repr, DecidableEq

abbrev Cache (T : Type) : Type := List (String × CacheItem T)

def CACHE_EXPIRATION_MS : Nat := 5 * 60 * 1000

def cacheGet {T : Type} (c : Cache T) (k : String) : Option (CacheItem T) :=
  (List.find? (fun kv => kv.1 == k) c).map (fun kv => kv.2)

def cacheSet {T : Type} (c : Cache T) (k : String) (item : CacheItem T) : Cache T :=
  if List.any c (fun kv => kv.1 == k) then
    List.map (fun kv => if kv.1 == k then (k, item) else kv) c
  else
    c ++ [(k, item)]

def cleanExpiredCache {T : Type} (now : Nat) (c : Cache T) : Cache T :=
  List.filter (fun kv => decide (now - kv.2.timestamp ≤ CACHE_EXPIRATION_MS)) c

/-! ## Buffer fingerprint (`getBufferCacheKey`, part_000 lines 26-31)

`${buffer.length}-${hex of first 20 bytes}-${hex of last 20 bytes}`. -/

def hexDigit (n : Nat) : Char :=
  if n < 10 then Char.ofNat (48 + n) else Char.ofNat (87 + n)

def byteToHex (b : Nat) : String :=
  String.mk [hexDigit (b / 16 % 16), hexDigit (b % 16)]

def bytesToHex (bs : List Nat) : String :=
  String.join (List.map byteToHex bs)

def getBufferCacheKey (buffer : List Nat) : String :=
  let start := bytesToHex (buffer.take (min 20 buffer.length))
  let stop := bytesToHex (buffer.drop (buffer.length - 20))
  toString buffer.length ++ "-" ++ start ++ "-" ++ stop

/-! ## Transcription adapter (`transcribeAudio`, part_000 lines 44-111)

The Whisper call is an oracle `Except String WhisperResp`; file-system
side effects are recorded as a trace of events.  The source writes the
buffer to a temp file, calls the API, and unlinks the temp file only on
the success path (the `catch` block does not unlink). -/

structure WhisperResp where
  text : String
  duration : Option Nat
  deriving Repr, DecidableEq

structure TranscriptionResult where
  text : String
  duration : Nat
  deriving Repr, DecidableEq

inductive FsEvent where
  | write (path : String)
  | unlink (path : String)
  deriving Repr, DecidableEq

def tempFileName (now : Nat) (format : String) : String :=
  "/tmp/audio-" ++ toString now ++ "." ++ format

/-- Embedding of `transcribeAudio(audioBuffer, format)`.  Returns the
result (or the wrapped thrown error), the file-system event trace, the
number of upstream Whisper invocations, and the final transcription cache. -/
def transcribeAudio (whisper : Except String WhisperResp) (now : Nat)
    (cache : Cache TranscriptionResult) (audioBuffer : List Nat) (format : String) :
    Except String TranscriptionResult × List FsEvent × Nat × Cache TranscriptionResult :=
  let cache1 := cleanExpiredCache now cache
  let cacheKey := getBufferCacheKey audioBuffer
  match cacheGet cache1 cacheKey with
  | some cachedResult => (Except.ok cachedResult.value, [], 0, cache1)
  | none =>
    let tempFile := tempFileName now format
    match whisper with
    | Except.error e =>
      (Except.error ("Transcription failed: " ++ e), [FsEvent.write tempFile], 1, cache1)
    | Except.ok transcription =>
      let result : TranscriptionResult :=
        { text := transcription.text, duration := transcription.duration.getD 0 }
      let cache2 := cacheSet cache1 cacheKey { value := result, timestamp := now }
      (Except.ok result, [FsEvent.write tempFile, FsEvent.unlink tempFile], 1, cache2)

/-! ## Credential validation (`src/server/twitter.ts`, lines 11-29)

Environment variables are `string | undefined`; `!process.env.X` is true
when the variable is unset or the empty string. -/

structure TwitterEnv where
  apiKey : Option String
  apiSecret : Option String
  accessToken : Option String
  accessSecret : Option String
  deriving Repr, DecidableEq

def envPresent (v : Option String) : Bool :=
  match v with
  | none => false
  | some s => !s.isEmpty

structure CredentialCheck where
  isValid : Bool
  missingCredentials : List String
  message : String
  deriving Repr, DecidableEq

def validateTwitterCredentials (env : TwitterEnv) : CredentialCheck :=
  let missingCredentials :=
    (if !envPresent env.apiKey then ["TWITTER_API_KEY"] else []) ++
    (if !envPresent env.apiSecret then ["TWITTER_API_SECRET"] else []) ++
    (if !envPresent env.accessToken then ["TWITTER_ACCESS_TOKEN"] else []) ++
    (if !envPresent env.accessSecret then ["TWITTER_ACCESS_SECRET"] else [])
  let isValid := missingCredentials.length == 0
  let message :=
    if isValid then "Twitter API credentials are properly configured"
    else "Missing Twitter API credentials: " ++ String.intercalate ", " missingCredentials
  { isValid := isValid, missingCredentials := missingCredentials, message := message }

/-! ## Thread publisher (`postTweetThread`, `src/server/twitter.ts` lines 148-216)

The external publish capability is an oracle indexed by the call sequence
number, receiving the tweet text and the optional reply-to identifier and
returning the assigned remote identifier or a thrown error message.  Every
call made to the capability is recorded in a trace; the `delete`
constructor exists so that the absence of compensating deletes is a
statement about the trace, not merely about the trace type. -/

inductive PubCall where
  | publish (text : String) (replyTo : Option String)
  | delete (id : String)
  deriving Repr, DecidableEq

/-- The `for` loop of `postTweetThread`: validate each tweet, publish it
(threading via `replyToId`), accumulate ids; abort on the first failure. -/
def postThreadLoop (pub : Nat → String → Option String → Except String String) :
    List String → Nat → Option String → List String → List PubCall →
    Except String (List String) × List PubCall
  | [], _, _, tweetIds, trace => (Except.ok tweetIds, trace)
  | text :: rest, i, replyToId, tweetIds, trace =>
    if jsTrim text = "" then
      (Except.error ("Tweet #" ++ toString (i + 1) ++ " in thread cannot be empty"), trace)
    else if text.length > 280 then
      (Except.error ("Tweet #" ++ toString (i + 1) ++ " in thread exceeds the 280 character limit"),
       trace)
    else
      match pub i text replyToId with
      | Except.ok tweetId =>
        postThreadLoop pub rest (i + 1) (some tweetId) (tweetIds ++ [tweetId])
          (trace ++ [PubCall.publish text replyToId])
      | Except.error msg =>
        (Except.error ("Failed to post tweet #" ++ toString (i + 1) ++ " in thread: " ++ msg),
         trace ++ [PubCall.publish text replyToId])

/-- Embedding of `postTweetThread(tweets)`.  Returns either the ordered
remote ids together with the thread id (the id of the first tweet), or the
wrapped thrown error; paired with the trace of publish-capability calls. -/
def postTweetThread (env : TwitterEnv) (pub : Nat → String → Option String → Except String String)
    (tweets : List String) : Except String (List String × String) × List PubCall :=
  if tweets.length = 0 then
    (Except.error "Twitter thread error: No tweets provided for thread", [])
  else
    let credentials := validateTwitterCredentials env
    if !credentials.isValid then
      (Except.error ("Twitter thread error: Cannot post tweet thread: " ++ credentials.message), [])
    else
      match postThreadLoop pub tweets 0 none [] [] with
      | (Except.ok tweetIds, trace) => (Except.ok (tweetIds, tweetIds.getD 0 ""), trace)
      | (Except.error msg, trace) => (Except.error ("Twitter thread error: " ++ msg), trace)

/-! ## Tweet generation (`processTranscriptionAndCreateTweet`, part_000 lines 113-215)

The chat-completion call plus the subsequent handling of its response body
is an oracle indexed by the upstream call number.  The four outcomes mirror
the source's control flow:
- `apiError status`: `openai.chat.completions.create` throws; `status` is
  the error's HTTP status (`some 429` is the rate-limit case);
- `parseFailure`: the call returns but `JSON.parse(content)` throws (the thrown
  `SyntaxError` has no `status` field);
- `objWithoutTweets`: the content parses (this includes null or empty
  content, which `content || "{}"` turns into `"{}"`) but its `tweets`
  field is absent or not an array;
- `tweets l`: the content parses and `tweets` is an array. -/

inductive GenOutcome where
  | apiError (status : Option Nat)
  | parseFailure
  | objWithoutTweets
  | tweets (l : List String)
  deriving Repr, DecidableEq

/-- Errors escaping the retry loop: either the raw error of the last
attempt rethrown by the `catch` block, or the post-loop
`"Failed to process transcription after 3 attempts"` error. -/
inductive InnerError where
  | rawApi (status : Option Nat)
  | rawParse
  | exhausted
  deriving Repr, DecidableEq

def maxRetries : Nat := 3

/-- The `while (retries < maxRetries)` loop of
`processTranscriptionAndCreateTweet`, with the call counter made explicit.
On a successful outcome the tweet thread (the parsed array, or
`[rawTranscript]` when the `tweets` field is missing or not an array) is
stored in the cache and returned; on a thrown error the loop retries only
when the status is 429 and attempts remain, and otherwise rethrows the raw
error.  Exiting the loop normally yields the `exhausted` error.  Returns
the result, the number of upstream calls made, and the final cache. -/
def genLoop (gen : Nat → GenOutcome) (rawTranscript : String) (now : Nat)
    (cache : Cache (List String)) (calls retries : Nat) :
    Except InnerError (List String) × Nat × Cache (List String) :=
  if _h : retries < maxRetries then
    match gen calls with
    | GenOutcome.tweets l =>
      let cache2 := cacheSet cache (jsTrim rawTranscript) { value := l, timestamp := now }
      (Except.ok l, calls + 1, cache2)
    | GenOutcome.objWithoutTweets =>
      let tweetThread := [rawTranscript]
      let cache2 := cacheSet cache (jsTrim rawTranscript) { value := tweetThread, timestamp := now }
      (Except.ok tweetThread, calls + 1, cache2)
    | GenOutcome.parseFailure =>
      (Except.error InnerError.rawParse, calls + 1, cache)
    | GenOutcome.apiError status =>
      if status = some 429 ∧ retries + 1 < maxRetries then
        genLoop gen rawTranscript now cache (calls + 1) (retries + 1)
      else
        (Except.error (InnerError.rawApi status), calls + 1, cache)
  else
    (Except.error InnerError.exhausted, calls, cache)
  termination_by maxRetries - retries
  decreasing_by omega

/-- Embedding of `processTranscriptionAndCreateTweet(rawTranscript)`.
Empty or whitespace-only input short-circuits to `[""]`; otherwise the
cleaned cache is consulted under the trimmed transcript, and on a miss the
retry loop runs; any error escaping it is swallowed by the outer `catch`,
which returns `[rawTranscript]`.  Returns the tweet thread, the number of
upstream generation calls made, and the final cache. -/
def processTranscriptionAndCreateTweet (gen : Nat → GenOutcome) (now : Nat)
    (cache : Cache (List String)) (rawTranscript : String) :
    List String × Nat × Cache (List String) :=
  if jsTrim rawTranscript = "" then
    ([""], 0, cache)
  else
    let cache1 := cleanExpiredCache now cache
    let cacheKey := jsTrim rawTranscript
    match cacheGet cache1 cacheKey with
    | some cachedResult => (cachedResult.value, 0, cache1)
    | none =>
      match genLoop gen rawTranscript now cache1 0 0 with
      | (Except.ok tweetThread, calls, cache2) => (tweetThread, calls, cache2)
      | (Except.error _, calls, cache2) => ([rawTranscript], calls, cache2)

/-- The reply-reference argument for the j-th publish call of a thread run
that starts with reply target `r` and whose earlier calls were assigned
the identifiers `ids 0, ids 1, ...`: the first call carries `r`, and call
`j+1` replies to the identifier assigned at call `j`. -/
def replyArgF (r : Option String) (ids : Nat → String) : Nat → Option String
  | 0 => r
  | j + 1 => some (ids j)

/-- View an ordered identifier list as the assignment function of call
identifiers used by `replyArgF`. -/
def idsF (l : List String) : Nat → String := fun n => l.getD n ""

/-! ## Concrete fixtures used by witnesses and counterexamples -/

def env0 : TwitterEnv :=
  { apiKey := some "key", apiSecret := some "secret"
    accessToken := some "token", accessSecret := some "access" }

/-- A publish capability that always succeeds, assigning `id<n>` to call n. -/
def pubOk : Nat → String → Option String → Except String String :=
  fun i _ _ => Except.ok ("id" ++ toString i)

/-- A publish capability that succeeds on the first call and fails afterwards. -/
def pubFailAt1 : Nat → String → Option String → Except String String :=
  fun i _ _ => if i = 0 then Except.ok "id0" else Except.error "boom"

/-- A generation capability that is rate-limited on every attempt. -/
def rateLimited : Nat → GenOutcome := fun _ => GenOutcome.apiError (some 429)

/-- A generation capability whose response content is never valid JSON. -/
def parseFailing : Nat → GenOutcome := fun _ => GenOutcome.parseFailure

/-- A generation capability whose response parses but has no tweets array. -/
def malformedObj : Nat → GenOutcome := fun _ => GenOutcome.objWithoutTweets

/-- A post one character over the platform limit. -/
def longPost : String := String.mk (List.replicate 281 'a')

end SpeechToTweet

namespace SpeechToTweet

/-! # Theorems -/

/-- Claim C9: the credential presence check returns `isValid = true` exactly
when all four credential environment variables are present (set and
non-empty), and its `missingCredentials` list names exactly the absent
ones. -/
theorem validateTwitterCredentials_spec (env : TwitterEnv) :
    ((validateTwitterCredentials env).isValid = true ↔
      (envPresent env.apiKey = true ∧ envPresent env.apiSecret = true ∧
       envPresent env.accessToken = true ∧ envPresent env.accessSecret = true)) ∧
    ∀ name : String,
      name ∈ (validateTwitterCredentials env).missingCredentials ↔
        ((name = "TWITTER_API_KEY" ∧ envPresent env.apiKey = false) ∨
         (name = "TWITTER_API_SECRET" ∧ envPresent env.apiSecret = false) ∨
         (name = "TWITTER_ACCESS_TOKEN" ∧ envPresent env.accessToken = false) ∨
         (name = "TWITTER_ACCESS_SECRET" ∧ envPresent env.accessSecret = false)) := by
  cases hA : envPresent env.apiKey <;> cases hB : envPresent env.apiSecret <;>
    cases hC : envPresent env.accessToken <;> cases hD : envPresent env.accessSecret <;>
      simp [validateTwitterCredentials, hA, hB, hC, hD]

theorem replyArgF_cons (r : Option String) (id : String) (l : List String) (j : Nat) :
    replyArgF r (idsF (id :: l)) (j + 1) = replyArgF (some id) (idsF l) j := by
  cases j <;> rfl

theorem replyArgF_succ (r : Option String) (ids : Nat → String) (j : Nat) :
    replyArgF r ids (j + 1) = replyArgF (some (ids 0)) (fun n => ids (n + 1)) j := by
  cases j <;> rfl

/-- Full characterisation of a successful run of the publish loop: the ids
accumulate one per tweet, the trace records one publish call per tweet with
the chained reply argument, and each call's returned id is the one recorded. -/
theorem postThreadLoop_ok_spec (pub : Nat → String → Option String → Except String String) :
    ∀ (tweets : List String) (i0 : Nat) (r : Option String) (ids0 : List String)
      (trace0 : List PubCall) (ids : List String) (trace : List PubCall),
      postThreadLoop pub tweets i0 r ids0 trace0 = (Except.ok ids, trace) →
      ∃ newIds : List String,
        ids = ids0 ++ newIds ∧ newIds.length = tweets.length ∧
        trace = trace0 ++ (List.range tweets.length).map
          (fun j => PubCall.publish (tweets.getD j "") (replyArgF r (idsF newIds) j)) ∧
        ∀ j < tweets.length,
          pub (i0 + j) (tweets.getD j "") (replyArgF r (idsF newIds) j) =
            Except.ok (newIds.getD j "") := by
  intro tweets
  induction tweets with
  | nil =>
    intro i0 r ids0 trace0 ids trace h
    simp only [postThreadLoop, Prod.mk.injEq, Except.ok.injEq] at h
    obtain ⟨h1, h2⟩ := h
    subst h1; subst h2
    exact ⟨[], by simp, rfl, by simp, by intro j hj; simp at hj⟩
  | cons text rest ih =>
    intro i0 r ids0 trace0 ids trace h
    rw [postThreadLoop] at h
    by_cases h1 : jsTrim text = ""
    · rw [if_pos h1] at h; simp at h
    · rw [if_neg h1] at h
      by_cases h2 : text.length > 280
      · rw [if_pos h2] at h; simp at h
      · rw [if_neg h2] at h
        cases hp : pub i0 text r with
        | error msg => rw [hp] at h; simp at h
        | ok id =>
          rw [hp] at h
          obtain ⟨newIds, hids, hlen, htrace, hpub⟩ :=
            ih (i0 + 1) (some id) (ids0 ++ [id]) (trace0 ++ [PubCall.publish text r]) ids trace h
          refine ⟨id :: newIds, ?_, ?_, ?_, ?_⟩
          · rw [hids]; simp
          · simp [hlen]
          · have hmap : (List.range (rest.length + 1)).map
                (fun j => PubCall.publish ((text :: rest).getD j "")
                  (replyArgF r (idsF (id :: newIds)) j)) =
                PubCall.publish text r :: (List.range rest.length).map
                  (fun j => PubCall.publish (rest.getD j "") (replyArgF (some id) (idsF newIds) j)) := by
              rw [List.range_succ_eq_map, List.map_cons, List.map_map]
              congr 1
              exact List.map_congr_left fun j _ => by
                simp [Function.comp, replyArgF_cons]
            rw [htrace]
            simp only [List.length_cons, hmap, List.append_assoc, List.singleton_append]
          · intro j hj
            cases j with
            | zero =>
              simpa [replyArgF] using hp
            | succ k =>
              have h3 := hpub k (by simpa using hj)
              rw [Nat.succ_add] at h3
              rw [List.getD_cons_succ, replyArgF_cons, Nat.add_succ]
              exact h3

/-- Claim C1: on every successful `postTweetThread` run, post 0 is published
with no reply reference, each later post is published with its reply
reference equal to the identifier returned for the previous post, the
returned id list collects the remote identifiers in publication order, and
the thread id is the identifier of post 0. -/
theorem postTweetThread_success_spec (env : TwitterEnv)
    (pub : Nat → String → Option String → Except String String)
    (tweets ids : List String) (threadId : String) (trace : List PubCall)
    (h : postTweetThread env pub tweets = (Except.ok (ids, threadId), trace)) :
    ids.length = tweets.length ∧
    trace = (List.range tweets.length).map
      (fun j => PubCall.publish (tweets.getD j "") (replyArgF none (idsF ids) j)) ∧
    (∀ j < tweets.length,
      pub j (tweets.getD j "") (replyArgF none (idsF ids) j) = Except.ok (ids.getD j "")) ∧
    threadId = ids.getD 0 "" := by
  simp only [postTweetThread] at h
  split at h
  · simp at h
  · split at h
    · simp at h
    · split at h
      case _ tweetIds tr heq =>
        simp only [Prod.mk.injEq, Except.ok.injEq] at h
        obtain ⟨⟨hids, hthread⟩, htr⟩ := h
        subst hids; subst hthread; subst htr
        obtain ⟨newIds, hids, hlen, htrace, hpub⟩ :=
          postThreadLoop_ok_spec pub tweets 0 none [] [] tweetIds tr heq
        simp only [List.nil_append] at hids
        subst hids
        refine ⟨hlen, by simpa using htrace, ?_, rfl⟩
        intro j hj
        simpa using hpub j hj
      case _ msg tr heq =>
        simp at h

/-- Witness for C1 at a concrete two-post thread. -/
theorem postTweetThread_success_witness :
    (["id0", "id1"] : List String).length = (["hello", "world"] : List String).length ∧
    [PubCall.publish "hello" none, PubCall.publish "world" (some "id0")] =
      (List.range (["hello", "world"] : List String).length).map
        (fun j => PubCall.publish ((["hello", "world"] : List String).getD j "")
          (replyArgF none (idsF ["id0", "id1"]) j)) ∧
    (∀ j < (["hello", "world"] : List String).length,
      pubOk j ((["hello", "world"] : List String).getD j "")
          (replyArgF none (idsF ["id0", "id1"]) j) =
        Except.ok ((["id0", "id1"] : List String).getD j "")) ∧
    "id0" = (["id0", "id1"] : List String).getD 0 "" :=
  postTweetThread_success_spec env0 pubOk ["hello", "world"] ["id0", "id1"] "id0"
    [PubCall.publish "hello" none, PubCall.publish "world" (some "id0")] (by rfl)

/-- Running the publish loop when the first `k` tweets are valid and the
first `k` publish calls succeed is the same as running it from index `k`
with the accumulated ids and trace. -/
theorem postThreadLoop_reach (pub : Nat → String → Option String → Except String String) :
    ∀ (k : Nat) (tweets : List String) (i0 : Nat) (r : Option String) (ids : Nat → String)
      (ids0 : List String) (trace0 : List PubCall),
      k ≤ tweets.length →
      (∀ j < k, pub (i0 + j) (tweets.getD j "") (replyArgF r ids j) = Except.ok (ids j)) →
      (∀ j < k, jsTrim (tweets.getD j "") ≠ "" ∧ (tweets.getD j "").length ≤ 280) →
      postThreadLoop pub tweets i0 r ids0 trace0 =
        postThreadLoop pub (tweets.drop k) (i0 + k) (replyArgF r ids k)
          (ids0 ++ (List.range k).map ids)
          (trace0 ++ (List.range k).map
            (fun j => PubCall.publish (tweets.getD j "") (replyArgF r ids j))) := by
  intro k
  induction k with
  | zero =>
    intro tweets i0 r ids ids0 trace0 _ _ _
    simp [replyArgF]
  | succ k ih =>
    intro tweets i0 r ids ids0 trace0 hk hok hval
    cases tweets with
    | nil => simp at hk
    | cons text rest =>
      have hv0 := hval 0 (Nat.succ_pos k)
      simp only [List.getD_cons_zero] at hv0
      have hp0 := hok 0 (Nat.succ_pos k)
      simp only [List.getD_cons_zero, Nat.add_zero, replyArgF] at hp0
      rw [postThreadLoop, if_neg hv0.1, if_neg (by omega : ¬ text.length > 280), hp0]
      have step := ih rest (i0 + 1) (some (ids 0)) (fun n => ids (n + 1))
          (ids0 ++ [ids 0]) (trace0 ++ [PubCall.publish text r])
          (by simpa using hk)
          (by
            intro j hj
            have h3 := hok (j + 1) (by omega)
            simp only [List.getD_cons_succ] at h3
            rw [replyArgF_succ] at h3
            have heq : i0 + 1 + j = i0 + (j + 1) := by omega
            rw [heq]
            exact h3)
          (by
            intro j hj
            have h3 := hval (j + 1) (by omega)
            simpa using h3)
      change postThreadLoop pub rest (i0 + 1) (some (ids 0)) (ids0 ++ [ids 0])
        (trace0 ++ [PubCall.publish text r]) = _
      rw [step]
      have hb : i0 + 1 + k = i0 + (k + 1) := by omega
      have hc : replyArgF (some (ids 0)) (fun n => ids (n + 1)) k = replyArgF r ids (k + 1) :=
        (replyArgF_succ r ids k).symm
      have hd : ids0 ++ [ids 0] ++ List.map (fun n => ids (n + 1)) (List.range k) =
          ids0 ++ List.map ids (List.range (k + 1)) := by
        rw [List.range_succ_eq_map, List.map_cons, List.map_map, List.append_assoc,
          List.singleton_append]
        simp [Function.comp]
      have he : trace0 ++ [PubCall.publish text r] ++
          List.map (fun j => PubCall.publish (rest.getD j "")
            (replyArgF (some (ids 0)) (fun n => ids (n + 1)) j)) (List.range k) =
          trace0 ++ List.map (fun j => PubCall.publish ((text :: rest).getD j "")
            (replyArgF r ids j)) (List.range (k + 1)) := by
        rw [List.range_succ_eq_map, List.map_cons, List.map_map, List.append_assoc,
          List.singleton_append]
        congr 2
        exact List.map_congr_left fun j _ => by
          simp only [Function.comp_apply, List.getD_cons_succ]
          rw [replyArgF_succ]
      rw [hb, hc, hd, he]
      rfl

/-- Claim C2: when the publish capability succeeds at every call before `i`
and fails at call `i` (with `i` within the thread and every post up to `i`
passing validation), `postTweetThread` makes exactly `i + 1` publish calls,
none of them a delete, and reports an error naming post `i + 1` (the
1-based rendering of index `i`) together with the upstream reason. -/
theorem postTweetThread_midthread_failure (env : TwitterEnv)
    (pub : Nat → String → Option String → Except String String)
    (tweets : List String) (i : Nat) (ids : Nat → String) (msg : String)
    (hcred : (validateTwitterCredentials env).isValid = true)
    (hi : i < tweets.length)
    (hval : ∀ j ≤ i, jsTrim (tweets.getD j "") ≠ "" ∧ (tweets.getD j "").length ≤ 280)
    (hok : ∀ j < i, pub j (tweets.getD j "") (replyArgF none ids j) = Except.ok (ids j))
    (hfail : pub i (tweets.getD i "") (replyArgF none ids i) = Except.error msg) :
    postTweetThread env pub tweets =
      (Except.error ("Twitter thread error: " ++ ("Failed to post tweet #" ++ toString (i + 1) ++
          " in thread: " ++ msg)),
        (List.range (i + 1)).map
          (fun j => PubCall.publish (tweets.getD j "") (replyArgF none ids j))) ∧
    (postTweetThread env pub tweets).2.length = i + 1 ∧
    ∀ c ∈ (postTweetThread env pub tweets).2, ∀ id, c ≠ PubCall.delete id := by
  have hmain : postTweetThread env pub tweets =
      (Except.error ("Twitter thread error: " ++ ("Failed to post tweet #" ++ toString (i + 1) ++
          " in thread: " ++ msg)),
        (List.range (i + 1)).map
          (fun j => PubCall.publish (tweets.getD j "") (replyArgF none ids j))) := by
    have hreach := postThreadLoop_reach pub i tweets 0 none ids [] []
      (Nat.le_of_lt hi)
      (by intro j hj; simpa using hok j hj)
      (by intro j hj; exact hval j (Nat.le_of_lt hj))
    have hdrop : tweets.drop i = tweets.getD i "" :: tweets.drop (i + 1) := by
      rw [List.getD_eq_getElem?_getD, List.getElem?_eq_getElem hi]
      exact List.drop_eq_getElem_cons hi
    have hvi := hval i (Nat.le_refl i)
    simp only [postTweetThread]
    rw [if_neg (by omega : ¬ tweets.length = 0)]
    rw [hcred]
    simp only [Bool.not_true, Bool.false_eq_true, if_false]
    rw [hreach, hdrop, postThreadLoop, if_neg hvi.1,
      if_neg (by omega : ¬ (tweets.getD i "").length > 280)]
    rw [Nat.zero_add, hfail]
    simp only [List.nil_append, List.range_succ, List.map_append, List.map_cons, List.map_nil]

  refine ⟨hmain, ?_, ?_⟩
  · rw [hmain]; simp
  · rw [hmain]
    intro c hc id
    simp only [List.mem_map, List.mem_range] at hc
    obtain ⟨j, _, hj⟩ := hc
    rw [← hj]
    intro hcontra
    cases hcontra

/-- Witness for C2: three valid posts, the capability succeeds at call 0
and fails at call 1; exactly two publish calls are made. -/
theorem postTweetThread_midthread_failure_witness :
    (postTweetThread env0 pubFailAt1 ["a", "b", "c"] =
      (Except.error ("Twitter thread error: " ++ ("Failed to post tweet #" ++ toString (1 + 1) ++
          " in thread: " ++ "boom")),
        (List.range 2).map
          (fun j => PubCall.publish ((["a", "b", "c"] : List String).getD j "")
            (replyArgF none (fun _ => "id0") j))) ∧
    (postTweetThread env0 pubFailAt1 ["a", "b", "c"]).2.length = 1 + 1 ∧
    ∀ c ∈ (postTweetThread env0 pubFailAt1 ["a", "b", "c"]).2,
      ∀ id, c ≠ PubCall.delete id) :=
  postTweetThread_midthread_failure env0 pubFailAt1 ["a", "b", "c"] 1 (fun _ => "id0") "boom"
    (by rfl) (by decide) (by decide) (by decide) (by rfl)

/-- Counterexample to claim C6 as stated: a thread whose second post is
empty still triggers one publish-capability call (for the valid first
post) before the validation error is raised, so the error is not raised
before any publish network call. -/
theorem postTweetThread_validation_counterexample :
    (postTweetThread env0 pubOk ["a", ""]).1 =
      Except.error ("Twitter thread error: " ++ "Tweet #2 in thread cannot be empty") ∧
    (postTweetThread env0 pubOk ["a", ""]).2 = [PubCall.publish "a" none] ∧
    ((postTweetThread env0 pubOk ["a", ""]).2.length = 0 → False) := by
  refine ⟨by rfl, by rfl, by decide⟩

/-- Claim C6 (amended): when the first offending post (empty/whitespace or
over 280 characters) sits at index `k`, the validation error names index
`k` (as post `k + 1`) and is raised before the publish call for index `k`,
with no retry; exactly the `k` valid earlier posts have already been
published. -/
theorem postTweetThread_validation_spec (env : TwitterEnv)
    (pub : Nat → String → Option String → Except String String)
    (tweets : List String) (k : Nat) (ids : Nat → String)
    (hcred : (validateTwitterCredentials env).isValid = true)
    (hk : k < tweets.length)
    (hval : ∀ j < k, jsTrim (tweets.getD j "") ≠ "" ∧ (tweets.getD j "").length ≤ 280)
    (hok : ∀ j < k, pub j (tweets.getD j "") (replyArgF none ids j) = Except.ok (ids j))
    (hbad : jsTrim (tweets.getD k "") = "" ∨ (tweets.getD k "").length > 280) :
    postTweetThread env pub tweets =
      (Except.error ("Twitter thread error: " ++
        (if jsTrim (tweets.getD k "") = "" then
          "Tweet #" ++ toString (k + 1) ++ " in thread cannot be empty"
         else
          "Tweet #" ++ toString (k + 1) ++ " in thread exceeds the 280 character limit")),
        (List.range k).map
          (fun j => PubCall.publish (tweets.getD j "") (replyArgF none ids j))) ∧
    (postTweetThread env pub tweets).2.length = k := by
  have hreach := postThreadLoop_reach pub k tweets 0 none ids [] []
    (Nat.le_of_lt hk)
    (by intro j hj; simpa using hok j hj)
    hval
  have hdrop : tweets.drop k = tweets.getD k "" :: tweets.drop (k + 1) := by
    rw [List.getD_eq_getElem?_getD, List.getElem?_eq_getElem hk]
    exact List.drop_eq_getElem_cons hk
  have hmain : postTweetThread env pub tweets =
      (Except.error ("Twitter thread error: " ++
        (if jsTrim (tweets.getD k "") = "" then
          "Tweet #" ++ toString (k + 1) ++ " in thread cannot be empty"
         else
          "Tweet #" ++ toString (k + 1) ++ " in thread exceeds the 280 character limit")),
        (List.range k).map
          (fun j => PubCall.publish (tweets.getD j "") (replyArgF none ids j))) := by
    simp only [postTweetThread]
    rw [if_neg (by omega : ¬ tweets.length = 0), hcred]
    simp only [Bool.not_true, Bool.false_eq_true, if_false]
    rw [hreach, hdrop, postThreadLoop]
    by_cases hb1 : jsTrim (tweets.getD k "") = ""
    · rw [if_pos hb1, if_pos hb1]
      simp
    · have hb2 : (tweets.getD k "").length > 280 := by
        rcases hbad with h | h
        · exact absurd h hb1
        · exact h
      rw [if_neg hb1, if_neg hb1, if_pos hb2]
      simp
  refine ⟨hmain, ?_⟩
  rw [hmain]
  simp

/-- Witness for the amended C6: offending empty post at index 1, one
earlier valid post already published. -/
theorem postTweetThread_validation_witness :
    postTweetThread env0 pubOk ["a", "", "c"] =
      (Except.error ("Twitter thread error: " ++ "Tweet #2 in thread cannot be empty"),
        [PubCall.publish "a" none]) ∧
    (postTweetThread env0 pubOk ["a", "", "c"]).2.length = 1 :=
  postTweetThread_validation_spec env0 pubOk ["a", "", "c"] 1 (fun j => "id" ++ toString j)
    (by rfl) (by decide) (by decide) (by decide) (Or.inl (by rfl))

/-- Counterexample to claim C7 as stated: when the external speech-to-text
call throws, the transient file is written but never deleted — the
artifact outlives the call on the exception path. -/
theorem transcribeAudio_leak_counterexample :
    (transcribeAudio (Except.error "boom") 0 [] [1, 2, 3] "webm").2.1 =
      [FsEvent.write "/tmp/audio-0.webm"] ∧
    FsEvent.unlink "/tmp/audio-0.webm" ∉
      (transcribeAudio (Except.error "boom") 0 [] [1, 2, 3] "webm").2.1 := by
  decide

/-- Claim C7 (amended): on a cache miss the transient file is written and
then deleted before return on the success path of the external call, but
on the exception path it is written and not deleted (the unlink is skipped). -/
theorem transcribeAudio_tempfile_spec (whisper : Except String WhisperResp) (now : Nat)
    (cache : Cache TranscriptionResult) (audioBuffer : List Nat) (format : String)
    (hmiss : cacheGet (cleanExpiredCache now cache) (getBufferCacheKey audioBuffer) = none) :
    (∀ resp, whisper = Except.ok resp →
      (transcribeAudio whisper now cache audioBuffer format).2.1 =
        [FsEvent.write (tempFileName now format), FsEvent.unlink (tempFileName now format)]) ∧
    (∀ e, whisper = Except.error e →
      (transcribeAudio whisper now cache audioBuffer format).2.1 =
        [FsEvent.write (tempFileName now format)] ∧
      FsEvent.unlink (tempFileName now format) ∉
        (transcribeAudio whisper now cache audioBuffer format).2.1) := by
  constructor
  · intro resp hw
    subst hw
    simp [transcribeAudio, hmiss]
  · intro e hw
    subst hw
    simp [transcribeAudio, hmiss]

/-- Witness for the amended C7 at a concrete buffer and oracle. -/
theorem transcribeAudio_tempfile_witness :
    (∀ resp, (Except.ok ⟨"hi", none⟩ : Except String WhisperResp) = Except.ok resp →
      (transcribeAudio (Except.ok ⟨"hi", none⟩) 0 [] [1, 2, 3] "webm").2.1 =
        [FsEvent.write (tempFileName 0 "webm"), FsEvent.unlink (tempFileName 0 "webm")]) ∧
    (∀ e, (Except.ok ⟨"hi", none⟩ : Except String WhisperResp) = Except.error e →
      (transcribeAudio (Except.ok ⟨"hi", none⟩) 0 [] [1, 2, 3] "webm").2.1 =
        [FsEvent.write (tempFileName 0 "webm")] ∧
      FsEvent.unlink (tempFileName 0 "webm") ∉
        (transcribeAudio (Except.ok ⟨"hi", none⟩) 0 [] [1, 2, 3] "webm").2.1) :=
  transcribeAudio_tempfile_spec (Except.ok ⟨"hi", none⟩) 0 [] [1, 2, 3] "webm" (by rfl)

/-- Keys matching `k` in a map-overwrite pass produce the stored item. -/
theorem cacheGet_map_overwrite {T : Type} (k : String) (item : CacheItem T) :
    ∀ c : Cache T, List.any c (fun kv => kv.1 == k) = true →
      cacheGet (List.map (fun kv => if kv.1 == k then (k, item) else kv) c) k = some item := by
  intro c
  induction c with
  | nil => intro ha; simp at ha
  | cons hd tl ih =>
    intro ha
    by_cases hb : (hd.1 == k) = true
    · simp only [List.map_cons, if_pos hb]
      have hfind : List.find? (fun kv => kv.1 == k)
          ((k, item) :: List.map (fun kv => if kv.1 == k then (k, item) else kv) tl) =
          some (k, item) :=
        List.find?_cons_of_pos _ (by simp)
      unfold cacheGet
      rw [hfind]
      rfl
    · have ha2 : List.any tl (fun kv => kv.1 == k) = true := by
        simpa [hb] using ha
      simp only [List.map_cons, if_neg hb]
      have hskip : List.find? (fun kv => kv.1 == k)
          (hd :: List.map (fun kv => if kv.1 == k then (k, item) else kv) tl) =
          List.find? (fun kv => kv.1 == k)
            (List.map (fun kv => if kv.1 == k then (k, item) else kv) tl) :=
        List.find?_cons_of_neg _ hb
      unfold cacheGet
      rw [hskip]
      exact ih ha2

/-- `Map.set` followed by `Map.get` on the same key yields the stored item. -/
theorem cacheGet_cacheSet_self {T : Type} (c : Cache T) (k : String) (item : CacheItem T) :
    cacheGet (cacheSet c k item) k = some item := by
  unfold cacheSet
  by_cases ha : List.any c (fun kv => kv.1 == k) = true
  · rw [if_pos ha]
    exact cacheGet_map_overwrite k item c ha
  · rw [if_neg ha]
    have hnone : List.find? (fun kv => kv.1 == k) c = none := by
      rw [List.find?_eq_none]
      intro kv hkv hkk
      exact ha (List.any_eq_true.mpr ⟨kv, hkv, hkk⟩)
    have hlast : List.find? (fun kv => kv.1 == k) [(k, item)] = some (k, item) :=
      List.find?_cons_of_pos _ (by simp)
    unfold cacheGet
    rw [List.find?_append, hnone, Option.none_or, hlast]
    rfl

/-- A cached entry that is still fresh at `now2` survives the expiry sweep. -/
theorem cacheGet_cleanExpiredCache {T : Type} (now2 : Nat) (c : Cache T) (k : String)
    (item : CacheItem T) (h : cacheGet c k = some item)
    (hfresh : now2 - item.timestamp ≤ CACHE_EXPIRATION_MS) :
    cacheGet (cleanExpiredCache now2 c) k = some item := by
  induction c with
  | nil => simp [cacheGet] at h
  | cons hd tl ih =>
    by_cases hb : (hd.1 == k) = true
    · have hfind : List.find? (fun kv => kv.1 == k) (hd :: tl) = some hd :=
        List.find?_cons_of_pos _ hb
      unfold cacheGet at h
      rw [hfind] at h
      simp only [Option.map_some'] at h
      have hq : (fun kv : String × CacheItem T =>
          decide (now2 - kv.2.timestamp ≤ CACHE_EXPIRATION_MS)) hd = true := by
        show decide (now2 - hd.2.timestamp ≤ CACHE_EXPIRATION_MS) = true
        rw [Option.some.inj h]
        exact decide_eq_true hfresh
      unfold cleanExpiredCache
      rw [List.filter_cons_of_pos
        (p := fun kv : String × CacheItem T => decide (now2 - kv.2.timestamp ≤ CACHE_EXPIRATION_MS)) hq]
      unfold cacheGet
      rw [List.find?_cons_of_pos (p := fun kv : String × CacheItem T => kv.1 == k) _ hb,
        Option.map_some', h]
    · have hskip : List.find? (fun kv => kv.1 == k) (hd :: tl) =
          List.find? (fun kv => kv.1 == k) tl :=
        List.find?_cons_of_neg _ hb
      have h2 : cacheGet tl k = some item := by
        unfold cacheGet at h ⊢
        rw [hskip] at h
        exact h
      have htl := ih h2
      unfold cleanExpiredCache at htl ⊢
      by_cases hq : (fun kv : String × CacheItem T =>
          decide (now2 - kv.2.timestamp ≤ CACHE_EXPIRATION_MS)) hd = true
      · rw [List.filter_cons_of_pos
          (p := fun kv : String × CacheItem T => decide (now2 - kv.2.timestamp ≤ CACHE_EXPIRATION_MS)) hq]
        unfold cacheGet at htl ⊢
        rw [List.find?_cons_of_neg (p := fun kv : String × CacheItem T => kv.1 == k) _ hb]
        exact htl
      · rw [List.filter_cons_of_neg
          (p := fun kv : String × CacheItem T => decide (now2 - kv.2.timestamp ≤ CACHE_EXPIRATION_MS)) hq]
        exact htl

/-- A key absent from the cache is still absent after the expiry sweep. -/
theorem cacheGet_cleanExpiredCache_none {T : Type} (now2 : Nat) (c : Cache T) (k : String)
    (h : cacheGet c k = none) :
    cacheGet (cleanExpiredCache now2 c) k = none := by
  simp only [cacheGet, Option.map_eq_none', List.find?_eq_none] at h ⊢
  intro kv hkv
  exact h kv (List.mem_of_mem_filter hkv)

/-- A generation call whose first attempt yields a tweets array succeeds
immediately, caching the array under the trimmed transcript. -/
theorem genLoop_tweets_first (gen : Nat → GenOutcome) (raw : String) (now : Nat)
    (cache : Cache (List String)) (l : List String) (h : gen 0 = GenOutcome.tweets l) :
    genLoop gen raw now cache 0 0 =
      (Except.ok l, 1, cacheSet cache (jsTrim raw) { value := l, timestamp := now }) := by
  rw [genLoop, dif_pos (by norm_num [maxRetries] : (0 : Nat) < maxRetries), h]

/-- A generation call whose first attempt parses but has no tweets array
returns the fallback `[raw]` and caches it. -/
theorem genLoop_objWithoutTweets_first (gen : Nat → GenOutcome) (raw : String) (now : Nat)
    (cache : Cache (List String)) (h : gen 0 = GenOutcome.objWithoutTweets) :
    genLoop gen raw now cache 0 0 =
      (Except.ok [raw], 1, cacheSet cache (jsTrim raw) { value := [raw], timestamp := now }) := by
  rw [genLoop, dif_pos (by norm_num [maxRetries] : (0 : Nat) < maxRetries), h]

/-- If the oracle never yields a tweets array, the retry loop ends in the
fallback `[raw]` or in an error. -/
theorem genLoop_no_tweets (gen : Nat → GenOutcome) (raw : String) (now : Nat)
    (h : ∀ n l, gen n ≠ GenOutcome.tweets l) :
    ∀ (d calls retries : Nat) (cache : Cache (List String)),
      maxRetries - retries ≤ d →
      (genLoop gen raw now cache calls retries).1 = Except.ok [raw] ∨
      ∃ e, (genLoop gen raw now cache calls retries).1 = Except.error e := by
  intro d
  induction d with
  | zero =>
    intro calls retries cache hd
    rw [genLoop, dif_neg (by omega : ¬ retries < maxRetries)]
    exact Or.inr ⟨_, rfl⟩
  | succ d ih =>
    intro calls retries cache hd
    by_cases hr : retries < maxRetries
    · rw [genLoop, dif_pos hr]
      cases hg : gen calls with
      | tweets l => exact absurd hg (h calls l)
      | objWithoutTweets => exact Or.inl rfl
      | parseFailure => exact Or.inr ⟨_, rfl⟩
      | apiError status =>
        dsimp only
        by_cases hc : status = some 429 ∧ retries + 1 < maxRetries
        · rw [if_pos hc]
          exact ih (calls + 1) (retries + 1) cache (by omega)
        · rw [if_neg hc]
          exact Or.inr ⟨_, rfl⟩
    · rw [genLoop, dif_neg hr]
      exact Or.inr ⟨_, rfl⟩

/-- A successful retry-loop result is either a tweets array produced by
the oracle or the fallback `[raw]`. -/
theorem genLoop_ok_cases (gen : Nat → GenOutcome) (raw : String) (now : Nat) :
    ∀ (d calls retries : Nat) (cache : Cache (List String)) (l : List String)
      (n : Nat) (c2 : Cache (List String)),
      maxRetries - retries ≤ d →
      genLoop gen raw now cache calls retries = (Except.ok l, n, c2) →
      (∃ m, gen m = GenOutcome.tweets l) ∨ l = [raw] := by
  intro d
  induction d with
  | zero =>
    intro calls retries cache l n c2 hd hloop
    rw [genLoop, dif_neg (by omega : ¬ retries < maxRetries)] at hloop
    simp at hloop
  | succ d ih =>
    intro calls retries cache l n c2 hd hloop
    by_cases hr : retries < maxRetries
    · rw [genLoop, dif_pos hr] at hloop
      cases hg : gen calls with
      | tweets l2 =>
        rw [hg] at hloop
        simp only [Prod.mk.injEq, Except.ok.injEq] at hloop
        exact Or.inl ⟨calls, hloop.1 ▸ hg⟩
      | objWithoutTweets =>
        rw [hg] at hloop
        simp only [Prod.mk.injEq, Except.ok.injEq] at hloop
        exact Or.inr hloop.1.symm
      | parseFailure =>
        rw [hg] at hloop
        simp at hloop
      | apiError status =>
        rw [hg] at hloop
        dsimp only at hloop
        by_cases hc : status = some 429 ∧ retries + 1 < maxRetries
        · rw [if_pos hc] at hloop
          exact ih (calls + 1) (retries + 1) cache l n c2 (by omega) hloop
        · rw [if_neg hc] at hloop
          simp at hloop
    · rw [genLoop, dif_neg hr] at hloop
      simp at hloop

/-- If every oracle outcome is a thrown error (API error or unparseable
content), the retry loop ends in an error and leaves the cache untouched. -/
theorem genLoop_throwing (gen : Nat → GenOutcome) (raw : String) (now : Nat)
    (hfail : ∀ n, (∃ s, gen n = GenOutcome.apiError s) ∨ gen n = GenOutcome.parseFailure) :
    ∀ (d calls retries : Nat) (cache : Cache (List String)),
      maxRetries - retries ≤ d →
      ∃ e n2, genLoop gen raw now cache calls retries = (Except.error e, n2, cache) := by
  intro d
  induction d with
  | zero =>
    intro calls retries cache hd
    rw [genLoop, dif_neg (by omega : ¬ retries < maxRetries)]
    exact ⟨_, _, rfl⟩
  | succ d ih =>
    intro calls retries cache hd
    by_cases hr : retries < maxRetries
    · rw [genLoop, dif_pos hr]
      rcases hfail calls with ⟨s, hg⟩ | hg
      · rw [hg]
        dsimp only
        by_cases hc : s = some 429 ∧ retries + 1 < maxRetries
        · rw [if_pos hc]
          exact ih (calls + 1) (retries + 1) cache (by omega)
        · rw [if_neg hc]
          exact ⟨_, _, rfl⟩
      · rw [hg]
        exact ⟨_, _, rfl⟩
    · rw [genLoop, dif_neg hr]
      exact ⟨_, _, rfl⟩

/-- Entering the retry loop with attempts remaining consults the upstream
capability at least once. -/
theorem genLoop_calls_ge (gen : Nat → GenOutcome) (raw : String) (now : Nat) :
    ∀ (d calls retries : Nat) (cache : Cache (List String)),
      maxRetries - retries ≤ d → retries < maxRetries →
      calls + 1 ≤ (genLoop gen raw now cache calls retries).2.1 := by
  intro d
  induction d with
  | zero =>
    intro calls retries cache hd hr
    omega
  | succ d ih =>
    intro calls retries cache hd hr
    rw [genLoop, dif_pos hr]
    cases hg : gen calls with
    | tweets l => simp
    | objWithoutTweets => simp
    | parseFailure => simp
    | apiError status =>
      dsimp only
      by_cases hc : status = some 429 ∧ retries + 1 < maxRetries
      · rw [if_pos hc]
        have := ih (calls + 1) (retries + 1) cache (by omega) hc.2
        omega
      · rw [if_neg hc]

/-- Claim C4: segmentToPosts never throws — whenever the generation oracle
never produces a tweets array (every attempt throws, is rate-limited into
exhaustion, is unparseable, or parses without the array), the function
returns the single-element sequence holding the original input verbatim. -/
theorem processTranscription_fail_open (gen : Nat → GenOutcome) (now : Nat)
    (cache : Cache (List String)) (raw : String)
    (hne : jsTrim raw ≠ "")
    (hmiss : cacheGet (cleanExpiredCache now cache) (jsTrim raw) = none)
    (h : ∀ n l, gen n ≠ GenOutcome.tweets l) :
    (processTranscriptionAndCreateTweet gen now cache raw).1 = [raw] := by
  simp only [processTranscriptionAndCreateTweet]
  rw [if_neg hne, hmiss]
  rcases hres : genLoop gen raw now (cleanExpiredCache now cache) 0 0 with ⟨res, n, c2⟩
  rcases genLoop_no_tweets gen raw now h maxRetries 0 0 (cleanExpiredCache now cache)
      (by omega) with hok | ⟨e, herr⟩
  · rw [hres] at hok
    simp only at hok
    rw [hok]
  · rw [hres] at herr
    simp only at herr
    rw [herr]

/-- Witness for C4 with an unparseable-content oracle. -/
theorem processTranscription_fail_open_witness :
    (processTranscriptionAndCreateTweet parseFailing 0 [] "hi").1 = ["hi"] :=
  processTranscription_fail_open parseFailing 0 [] "hi" (by decide) (by rfl)
    (fun n l hcontra => by simp [parseFailing] at hcontra)

/-- Claim C5 (code behaviour at the failing input): with a capability that
is rate-limited on every attempt, the retry loop makes exactly 3 upstream
calls and then surfaces the raw 429 error of the last attempt — not the
distinct retries-exhausted error, which is unreachable — and the outer
handler then degrades to the verbatim fallback. -/
theorem retryLoop_rate_limit_behavior :
    genLoop rateLimited "hello" 0 [] 0 0 =
      (Except.error (InnerError.rawApi (some 429)), 3, []) ∧
    (genLoop rateLimited "hello" 0 [] 0 0).1 ≠ Except.error InnerError.exhausted ∧
    (processTranscriptionAndCreateTweet rateLimited 0 [] "hello").1 = ["hello"] := by
  have h : genLoop rateLimited "hello" 0 ([] : Cache (List String)) 0 0 =
      (Except.error (InnerError.rawApi (some 429)), 3, []) := by
    simp [genLoop, rateLimited, maxRetries]
  refine ⟨h, by rw [h]; simp, ?_⟩
  simp only [processTranscriptionAndCreateTweet]
  rw [if_neg (by decide : ¬ (jsTrim "hello" = ""))]
  rw [(show cleanExpiredCache 0 ([] : Cache (List String)) = [] from rfl)]
  rw [(show cacheGet ([] : Cache (List String)) (jsTrim "hello") = none from rfl)]
  rw [h]

/-- Counterexample to claim C3 as stated: the code enforces no length
bound, so a generation response containing a 281-character post (equally:
the verbatim fallback of a long input) is returned as-is. -/
theorem segmentToPosts_over_limit_counterexample :
    (processTranscriptionAndCreateTweet (fun _ => GenOutcome.tweets [longPost]) 0 [] "talk").1 =
      [longPost] ∧ 280 < longPost.length := by
  constructor
  · simp only [processTranscriptionAndCreateTweet]
    rw [if_neg (by decide : ¬ (jsTrim "talk" = ""))]
    rw [(show cleanExpiredCache 0 ([] : Cache (List String)) = [] from rfl)]
    rw [(show cacheGet ([] : Cache (List String)) (jsTrim "talk") = none from rfl)]
    rw [genLoop_tweets_first (fun _ => GenOutcome.tweets [longPost]) "talk" 0 [] [longPost] rfl]
  · show 280 < (String.mk (List.replicate 281 'a')).length
    rw [(show (String.mk (List.replicate 281 'a')).length = (List.replicate 281 'a').length
      from rfl), List.length_replicate]
    omega

/-- Claim C3 (amended): segmentToPosts itself never truncates or rejects a
post; every returned post is bounded by 280 exactly when the bound holds
for the generation capability's arrays, for the cached values, and for the
input text (which is returned verbatim on the fallback paths). -/
theorem segmentToPosts_length_spec (gen : Nat → GenOutcome) (now : Nat)
    (cache : Cache (List String)) (raw : String)
    (hgen : ∀ m l, gen m = GenOutcome.tweets l → ∀ p ∈ l, p.length ≤ 280)
    (hraw : raw.length ≤ 280)
    (hcache : ∀ kv ∈ cache, ∀ p ∈ kv.2.value, p.length ≤ 280) :
    ∀ p ∈ (processTranscriptionAndCreateTweet gen now cache raw).1, p.length ≤ 280 := by
  intro p hp
  simp only [processTranscriptionAndCreateTweet] at hp
  by_cases hne : jsTrim raw = ""
  · rw [if_pos hne] at hp
    simp only [List.mem_singleton] at hp
    subst hp
    decide
  · rw [if_neg hne] at hp
    cases hcg : cacheGet (cleanExpiredCache now cache) (jsTrim raw) with
    | some it =>
      rw [hcg] at hp
      simp only at hp
      obtain ⟨kv, hfind, hsnd⟩ := Option.map_eq_some'.mp hcg
      have hkv : kv ∈ cache :=
        List.mem_of_mem_filter (List.mem_of_find?_eq_some hfind)
      refine hcache kv hkv p ?_
      rw [hsnd]
      exact hp
    | none =>
      rw [hcg] at hp
      rcases hres : genLoop gen raw now (cleanExpiredCache now cache) 0 0 with ⟨res, n, c2⟩
      rw [hres] at hp
      cases res with
      | ok l =>
        simp only at hp
        rcases genLoop_ok_cases gen raw now maxRetries 0 0 (cleanExpiredCache now cache)
            l n c2 (by omega) hres with ⟨m, hm⟩ | hfb
        · exact hgen m l hm p hp
        · rw [hfb] at hp
          simp only [List.mem_singleton] at hp
          subst hp
          exact hraw
      | error e =>
        simp only [List.mem_singleton] at hp
        subst hp
        exact hraw

/-- Witness for the amended C3 at a concrete in-bounds oracle and input:
the first returned post is within the platform limit. -/
theorem segmentToPosts_length_witness :
    (((processTranscriptionAndCreateTweet (fun _ => GenOutcome.tweets ["ok"]) 0 []
        "hi").1.getD 0 "")).length ≤ 280 := by
  have hres : (processTranscriptionAndCreateTweet (fun _ => GenOutcome.tweets ["ok"]) 0 []
      "hi").1 = ["ok"] := by
    simp only [processTranscriptionAndCreateTweet]
    rw [if_neg (by decide : ¬ (jsTrim "hi" = ""))]
    rw [(show cleanExpiredCache 0 ([] : Cache (List String)) = [] from rfl)]
    rw [(show cacheGet ([] : Cache (List String)) (jsTrim "hi") = none from rfl)]
    rw [genLoop_tweets_first (fun _ => GenOutcome.tweets ["ok"]) "hi" 0 [] ["ok"] rfl]
  exact segmentToPosts_length_spec (fun _ => GenOutcome.tweets ["ok"]) 0 [] "hi"
    (by
      intro m l hcontra p hp
      cases hcontra
      simp only [List.mem_singleton] at hp
      subst hp
      decide)
    (by decide)
    (by intro kv hkv; simp at hkv)
    ((processTranscriptionAndCreateTweet (fun _ => GenOutcome.tweets ["ok"]) 0 []
        "hi").1.getD 0 "")
    (by rw [hres]; decide)

/-- Counterexample to claim C8 as stated: when the generation response is
unparseable, nothing is cached, so the same text submitted twice within
the TTL window invokes the upstream generation capability twice — not at
most once (both calls do return identical fallback results). -/
theorem dedup_counterexample :
    (processTranscriptionAndCreateTweet parseFailing 0 [] "hello").1 = ["hello"] ∧
    (processTranscriptionAndCreateTweet parseFailing 1000
      (processTranscriptionAndCreateTweet parseFailing 0 [] "hello").2.2 "hello").1 = ["hello"] ∧
    (processTranscriptionAndCreateTweet parseFailing 0 [] "hello").2.1 +
      (processTranscriptionAndCreateTweet parseFailing 1000
        (processTranscriptionAndCreateTweet parseFailing 0 [] "hello").2.2 "hello").2.1 = 2 := by
  have hloop1 : ∀ t : Nat, genLoop parseFailing "hello" t ([] : Cache (List String)) 0 0 =
      (Except.error InnerError.rawParse, 1, []) := by
    intro t
    rw [genLoop, dif_pos (by norm_num [maxRetries] : (0 : Nat) < maxRetries)]
    rfl
  have h1 : processTranscriptionAndCreateTweet parseFailing 0 [] "hello" =
      (["hello"], 1, []) := by
    simp only [processTranscriptionAndCreateTweet]
    rw [if_neg (by decide : ¬ (jsTrim "hello" = ""))]
    rw [(show cleanExpiredCache 0 ([] : Cache (List String)) = [] from rfl)]
    rw [(show cacheGet ([] : Cache (List String)) (jsTrim "hello") = none from rfl)]
    rw [hloop1 0]
  have h2 : processTranscriptionAndCreateTweet parseFailing 1000 [] "hello" =
      (["hello"], 1, []) := by
    simp only [processTranscriptionAndCreateTweet]
    rw [if_neg (by decide : ¬ (jsTrim "hello" = ""))]
    rw [(show cleanExpiredCache 1000 ([] : Cache (List String)) = [] from rfl)]
    rw [(show cacheGet ([] : Cache (List String)) (jsTrim "hello") = none from rfl)]
    rw [hloop1 1000]
  rw [h1]
  simp only
  rw [h2]
  simp

/-- Claim C8 (amended): once a first submission has succeeded, a second
identical submission within the TTL window is served from the cache: the
transcription adapter makes exactly one upstream call across the two
submissions and both return the identical result, and segmentToPosts makes
no generation call on the second submission, returning the identical
thread. -/
theorem dedup_within_ttl_spec
    (resp : WhisperResp) (now1 now2 : Nat) (tcache : Cache TranscriptionResult)
    (buffer : List Nat) (format : String)
    (gen : Nat → GenOutcome) (l : List String) (gcache : Cache (List String)) (raw : String)
    (httl : now2 - now1 ≤ CACHE_EXPIRATION_MS)
    (htmiss : cacheGet (cleanExpiredCache now1 tcache) (getBufferCacheKey buffer) = none)
    (hg : gen 0 = GenOutcome.tweets l)
    (hne : jsTrim raw ≠ "")
    (hgmiss : cacheGet (cleanExpiredCache now1 gcache) (jsTrim raw) = none) :
    ((transcribeAudio (Except.ok resp) now1 tcache buffer format).2.2.1 = 1 ∧
     (transcribeAudio (Except.ok resp) now2
        (transcribeAudio (Except.ok resp) now1 tcache buffer format).2.2.2 buffer format).2.2.1 =
       0 ∧
     (transcribeAudio (Except.ok resp) now2
        (transcribeAudio (Except.ok resp) now1 tcache buffer format).2.2.2 buffer format).1 =
       (transcribeAudio (Except.ok resp) now1 tcache buffer format).1) ∧
    ((processTranscriptionAndCreateTweet gen now1 gcache raw).2.1 = 1 ∧
     (processTranscriptionAndCreateTweet gen now2
        (processTranscriptionAndCreateTweet gen now1 gcache raw).2.2 raw).2.1 = 0 ∧
     (processTranscriptionAndCreateTweet gen now2
        (processTranscriptionAndCreateTweet gen now1 gcache raw).2.2 raw).1 =
       (processTranscriptionAndCreateTweet gen now1 gcache raw).1) := by
  constructor
  · have h1 : transcribeAudio (Except.ok resp) now1 tcache buffer format =
        (Except.ok { text := resp.text, duration := resp.duration.getD 0 },
         [FsEvent.write (tempFileName now1 format), FsEvent.unlink (tempFileName now1 format)],
         1,
         cacheSet (cleanExpiredCache now1 tcache) (getBufferCacheKey buffer)
           { value := { text := resp.text, duration := resp.duration.getD 0 },
             timestamp := now1 }) := by
      simp only [transcribeAudio]
      rw [htmiss]
    have hget2 : cacheGet (cleanExpiredCache now2
        (cacheSet (cleanExpiredCache now1 tcache) (getBufferCacheKey buffer)
          { value := { text := resp.text, duration := resp.duration.getD 0 },
            timestamp := now1 })) (getBufferCacheKey buffer) =
        some { value := { text := resp.text, duration := resp.duration.getD 0 },
               timestamp := now1 } :=
      cacheGet_cleanExpiredCache now2 _ _ _ (cacheGet_cacheSet_self _ _ _) httl
    have h2 : transcribeAudio (Except.ok resp) now2
        (cacheSet (cleanExpiredCache now1 tcache) (getBufferCacheKey buffer)
          { value := { text := resp.text, duration := resp.duration.getD 0 },
            timestamp := now1 }) buffer format =
        (Except.ok { text := resp.text, duration := resp.duration.getD 0 }, [], 0,
         cleanExpiredCache now2
           (cacheSet (cleanExpiredCache now1 tcache) (getBufferCacheKey buffer)
             { value := { text := resp.text, duration := resp.duration.getD 0 },
               timestamp := now1 })) := by
      simp only [transcribeAudio]
      rw [hget2]
    rw [h1]
    simp only
    rw [h2]
    simp
  · have h1 : processTranscriptionAndCreateTweet gen now1 gcache raw =
        (l, 1, cacheSet (cleanExpiredCache now1 gcache) (jsTrim raw)
          { value := l, timestamp := now1 }) := by
      simp only [processTranscriptionAndCreateTweet]
      rw [if_neg hne, hgmiss, genLoop_tweets_first gen raw now1 _ l hg]
    have hget2 : cacheGet (cleanExpiredCache now2
        (cacheSet (cleanExpiredCache now1 gcache) (jsTrim raw)
          { value := l, timestamp := now1 })) (jsTrim raw) =
        some { value := l, timestamp := now1 } :=
      cacheGet_cleanExpiredCache now2 _ _ _ (cacheGet_cacheSet_self _ _ _) httl
    have h2 : processTranscriptionAndCreateTweet gen now2
        (cacheSet (cleanExpiredCache now1 gcache) (jsTrim raw)
          { value := l, timestamp := now1 }) raw =
        (l, 0, cleanExpiredCache now2
          (cacheSet (cleanExpiredCache now1 gcache) (jsTrim raw)
            { value := l, timestamp := now1 })) := by
      simp only [processTranscriptionAndCreateTweet]
      rw [if_neg hne, hget2]
    rw [h1]
    simp only
    rw [h2]
    simp

/-- Witness for the amended C8 at concrete inputs one minute apart. -/
theorem dedup_within_ttl_witness :
    ((transcribeAudio (Except.ok ⟨"txt", some 2⟩) 0 [] [1, 2, 3] "webm").2.2.1 = 1 ∧
     (transcribeAudio (Except.ok ⟨"txt", some 2⟩) 60000
        (transcribeAudio (Except.ok ⟨"txt", some 2⟩) 0 [] [1, 2, 3] "webm").2.2.2
        [1, 2, 3] "webm").2.2.1 = 0 ∧
     (transcribeAudio (Except.ok ⟨"txt", some 2⟩) 60000
        (transcribeAudio (Except.ok ⟨"txt", some 2⟩) 0 [] [1, 2, 3] "webm").2.2.2
        [1, 2, 3] "webm").1 =
       (transcribeAudio (Except.ok ⟨"txt", some 2⟩) 0 [] [1, 2, 3] "webm").1) ∧
    ((processTranscriptionAndCreateTweet (fun _ => GenOutcome.tweets ["a"]) 0 [] "hello").2.1 =
       1 ∧
     (processTranscriptionAndCreateTweet (fun _ => GenOutcome.tweets ["a"]) 60000
        (processTranscriptionAndCreateTweet (fun _ => GenOutcome.tweets ["a"]) 0 []
          "hello").2.2 "hello").2.1 = 0 ∧
     (processTranscriptionAndCreateTweet (fun _ => GenOutcome.tweets ["a"]) 60000
        (processTranscriptionAndCreateTweet (fun _ => GenOutcome.tweets ["a"]) 0 []
          "hello").2.2 "hello").1 =
       (processTranscriptionAndCreateTweet (fun _ => GenOutcome.tweets ["a"]) 0 []
         "hello").1) :=
  dedup_within_ttl_spec ⟨"txt", some 2⟩ 0 60000 [] [1, 2, 3] "webm"
    (fun _ => GenOutcome.tweets ["a"]) ["a"] [] "hello"
    (by decide) (by rfl) (by rfl) (by decide) (by rfl)

/-- Counterexample to claim C10 as stated: when the response parses but
lacks a tweets array, segmentToPosts returns the fail-open fallback and
nevertheless caches it — a subsequent call within the TTL makes zero
upstream calls and returns the cached fallback. -/
theorem genCache_fallback_cached_counterexample :
    (processTranscriptionAndCreateTweet malformedObj 0 [] "hello").1 = ["hello"] ∧
    cacheGet (processTranscriptionAndCreateTweet malformedObj 0 [] "hello").2.2 "hello" =
      some { value := ["hello"], timestamp := 0 } ∧
    (processTranscriptionAndCreateTweet malformedObj 1000
      (processTranscriptionAndCreateTweet malformedObj 0 [] "hello").2.2 "hello").2.1 = 0 ∧
    (processTranscriptionAndCreateTweet malformedObj 1000
      (processTranscriptionAndCreateTweet malformedObj 0 [] "hello").2.2 "hello").1 =
      ["hello"] := by
  have h1 : processTranscriptionAndCreateTweet malformedObj 0 [] "hello" =
      (["hello"], 1, cacheSet (cleanExpiredCache 0 []) (jsTrim "hello")
        { value := ["hello"], timestamp := 0 }) := by
    simp only [processTranscriptionAndCreateTweet]
    rw [if_neg (by decide : ¬ (jsTrim "hello" = ""))]
    rw [(show cacheGet (cleanExpiredCache 0 ([] : Cache (List String))) (jsTrim "hello") = none
      from rfl)]
    rw [genLoop_objWithoutTweets_first malformedObj "hello" 0 _ rfl]
  rw [h1]
  simp only
  refine ⟨?_, ?_, ?_⟩ <;> decide

/-- Claim C10 (amended): thrown generation failures (API errors including
rate-limit exhaustion, and unparseable content) write nothing to the
cache, so a subsequent identical call invokes the upstream again; but a
response that parses without a tweets array does cache the fallback
`[raw]` under the trimmed input. -/
theorem genCache_write_policy (gen : Nat → GenOutcome) (now now2 : Nat)
    (cache : Cache (List String)) (raw : String)
    (hne : jsTrim raw ≠ "")
    (hmiss : cacheGet (cleanExpiredCache now cache) (jsTrim raw) = none)
    (hfail : ∀ n, (∃ s, gen n = GenOutcome.apiError s) ∨ gen n = GenOutcome.parseFailure) :
    (processTranscriptionAndCreateTweet gen now cache raw).1 = [raw] ∧
    cacheGet (processTranscriptionAndCreateTweet gen now cache raw).2.2 (jsTrim raw) = none ∧
    1 ≤ (processTranscriptionAndCreateTweet gen now2
          (processTranscriptionAndCreateTweet gen now cache raw).2.2 raw).2.1 ∧
    (∀ gen2 : Nat → GenOutcome, gen2 0 = GenOutcome.objWithoutTweets →
      cacheGet (processTranscriptionAndCreateTweet gen2 now cache raw).2.2 (jsTrim raw) =
        some { value := [raw], timestamp := now }) := by
  obtain ⟨e, n2, hloop⟩ := genLoop_throwing gen raw now hfail maxRetries 0 0
    (cleanExpiredCache now cache) (by omega)
  have h1 : processTranscriptionAndCreateTweet gen now cache raw =
      ([raw], n2, cleanExpiredCache now cache) := by
    simp only [processTranscriptionAndCreateTweet]
    rw [if_neg hne, hmiss, hloop]
  refine ⟨by rw [h1], by rw [h1]; exact hmiss, ?_, ?_⟩
  · rw [h1]
    simp only
    have hmiss2 : cacheGet (cleanExpiredCache now2 (cleanExpiredCache now cache))
        (jsTrim raw) = none :=
      cacheGet_cleanExpiredCache_none now2 _ _ hmiss
    obtain ⟨e2, m2, hloop2⟩ := genLoop_throwing gen raw now2 hfail maxRetries 0 0
      (cleanExpiredCache now2 (cleanExpiredCache now cache)) (by omega)
    have h2 : processTranscriptionAndCreateTweet gen now2 (cleanExpiredCache now cache) raw =
        ([raw], m2, cleanExpiredCache now2 (cleanExpiredCache now cache)) := by
      simp only [processTranscriptionAndCreateTweet]
      rw [if_neg hne, hmiss2, hloop2]
    rw [h2]
    have hge := genLoop_calls_ge gen raw now2 maxRetries 0 0
      (cleanExpiredCache now2 (cleanExpiredCache now cache)) (by omega)
      (by norm_num [maxRetries])
    rw [hloop2] at hge
    simpa using hge
  · intro gen2 hg2
    have h3 : processTranscriptionAndCreateTweet gen2 now cache raw =
        ([raw], 1, cacheSet (cleanExpiredCache now cache) (jsTrim raw)
          { value := [raw], timestamp := now }) := by
      simp only [processTranscriptionAndCreateTweet]
      rw [if_neg hne, hmiss, genLoop_objWithoutTweets_first gen2 raw now _ hg2]
    rw [h3]
    exact cacheGet_cacheSet_self _ _ _

/-- Witness for the amended C10 with an unparseable-content oracle. -/
theorem genCache_write_policy_witness :
    (processTranscriptionAndCreateTweet parseFailing 0 [] "hi").1 = ["hi"] ∧
    cacheGet (processTranscriptionAndCreateTweet parseFailing 0 [] "hi").2.2 (jsTrim "hi") =
      none ∧
    1 ≤ (processTranscriptionAndCreateTweet parseFailing 1000
          (processTranscriptionAndCreateTweet parseFailing 0 [] "hi").2.2 "hi").2.1 ∧
    (∀ gen2 : Nat → GenOutcome, gen2 0 = GenOutcome.objWithoutTweets →
      cacheGet (processTranscriptionAndCreateTweet gen2 0 [] "hi").2.2 (jsTrim "hi") =
        some { value := ["hi"], timestamp := 0 }) :=
  genCache_write_policy parseFailing 0 1000 [] "hi" (by decide) (by rfl)
    (fun n => Or.inr rfl)

end SpeechToTweet
